import Mathlib

/-!
Verification of the PhronAi session protocol: the graph store and action
applier, the client-side protocol state machine of `AgentCanvas`
(message handler, action batch handler, recording stop handler), the
schema-validated reasoner retry loop, and the sliding-window rate limiter.

Definitions are shallow embeddings of the repository's code.  Components
whose implementation files are not part of the available sources (the
server-side reasoner and rate limiter, and `client/src/lib/graphLayout.ts`)
are modelled from the specification, as marked in their doc comments.
-/

namespace PhronAi

/-- Node type vocabulary, the fixed enumeration from the sketch protocol
schema (`prompts/sketch_protocol.md`). -/
inductive NodeType
  | database | server | client | storage | network
  | box | circle | cloud | diamond | hexagon
  | person | process | data | frame | text | note
deriving DecidableEq, Repr

/-- Color vocabulary, the fixed enumeration from the sketch protocol
schema (`prompts/sketch_protocol.md`). -/
inductive NodeColor
  | yellow | pink | blue | lightBlue | green | lightGreen
  | orange | red | violet | black | white | gray | grey
  | purple | cyan | teal
deriving DecidableEq, Repr

/-- Modelled from the spec: a diagram node of the Graph Store (§3 Data
Model); the implementing file `client/src/lib/graphLayout.ts` is not among
the available sources. -/
structure Node where
  id : String
  label : String
  description : Option String
  type : NodeType
  color : NodeColor
  parent_id : Option String
deriving DecidableEq, Repr

/-- Modelled from the spec: a diagram edge of the Graph Store (§3 Data
Model); the implementing file `client/src/lib/graphLayout.ts` is not among
the available sources. -/
structure Edge where
  id : String
  source_id : String
  target_id : String
  bidirectional : Bool
deriving DecidableEq, Repr

/-- Modelled from the spec: the Graph Store state — node and edge
mappings keyed by id, iteration order being insertion order (§3).
Modelled as insertion-ordered lists with ids carried on the entries. -/
structure GraphState where
  nodes : List Node
  edges : List Edge
deriving DecidableEq, Repr

/-- `createGraphState` of `graphLayout.ts`: the empty graph. -/
def createGraphState : GraphState := { nodes := [], edges := [] }

/-- The tagged action variant (§3): the only externally accepted
mutation format, matching the sketch protocol schema. -/
inductive Action
  | create_node (n : Node)
  | update_node (n : Node)
  | delete_node (id : String)
  | create_edge (e : Edge)
  | delete_edge (id : String)
deriving DecidableEq, Repr

/-- Insert-or-overwrite a node by id, keeping insertion order. -/
def upsertNode (ns : List Node) (n : Node) : List Node :=
  if ns.any (fun m => m.id == n.id) then
    ns.map (fun m => if m.id == n.id then n else m)
  else
    ns ++ [n]

/-- Insert-or-overwrite an edge by id, keeping insertion order. -/
def upsertEdge (es : List Edge) (e : Edge) : List Edge :=
  if es.any (fun d => d.id == e.id) then
    es.map (fun d => if d.id == e.id then e else d)
  else
    es ++ [e]

/-- Does a node with this id exist in the graph? -/
def nodeExists (g : GraphState) (i : String) : Bool :=
  g.nodes.any (fun m => m.id == i)

/-- Modelled from the spec: `apply(graph, action) → bool` of the Action
Applier (§4.2); the implementing file `client/src/lib/graphLayout.ts` is
not among the available sources.  Per-action policy: `create_node`
inserts or overwrites and always succeeds; `update_node` succeeds only if
the id exists, otherwise fails without mutating; `delete_node` removes
the node, every edge touching it, and clears `parent_id` references
(idempotent, always succeeds); `create_edge` succeeds only if both
endpoints resolve, otherwise fails without mutating; `delete_edge`
removes by id, idempotent. -/
def applyAction (g : GraphState) (a : Action) : GraphState × Bool :=
  match a with
  | .create_node n => ({ g with nodes := upsertNode g.nodes n }, true)
  | .update_node n =>
      if g.nodes.any (fun m => m.id == n.id) then
        ({ g with nodes := g.nodes.map (fun m => if m.id == n.id then n else m) }, true)
      else
        (g, false)
  | .delete_node i =>
      ({ nodes := (g.nodes.filter (fun m => !(m.id == i))).map
            (fun m => if m.parent_id == some i then { m with parent_id := none } else m),
         edges := g.edges.filter (fun e => !(e.source_id == i) && !(e.target_id == i)) }, true)
  | .create_edge e =>
      if nodeExists g e.source_id && nodeExists g e.target_id then
        ({ g with edges := upsertEdge g.edges e }, true)
      else
        (g, false)
  | .delete_edge i =>
      ({ g with edges := g.edges.filter (fun e => !(e.id == i)) }, true)

/-- The action batch loop of `handleActions` (`AgentCanvas.tsx`): apply
each action in order, recording each action's success independently;
a failed action never aborts the batch. -/
def applyActions (g : GraphState) (actions : List Action) : GraphState × List Bool :=
  match actions with
  | [] => (g, [])
  | a :: rest =>
      let r := applyAction g a
      let k := applyActions r.1 rest
      (k.1, r.2 :: k.2)

/-- The `AgentStatus` union of `AgentCanvas.tsx`. -/
inductive AgentStatus
  | idle | listening | transcribing | reasoning | rendering | error
deriving DecidableEq, Repr

/-- A timer scheduled by a handler via `setTimeout`: either the
revert-to-idle timer of the server-error branch, or the auto-save timer
scheduled after a successful render. -/
inductive Timer
  | toIdle (delayMs : Nat)
  | autoSave (delayMs : Nat)
deriving DecidableEq, Repr

/-- Observable outcome of one `handleActions` call of `AgentCanvas.tsx`:
the statuses set (in call order), the graph after the batch, the graph
handed to `layoutGraph` (if any), whether `renderLayout` ran, and the
timers scheduled. -/
structure HandleResult where
  statusTrace : List AgentStatus
  graph : GraphState
  layoutRequested : Option GraphState
  rendered : Bool
  timers : List Timer
deriving DecidableEq, Repr

/-- `handleActions` of `AgentCanvas.tsx`: with no editor or an empty
action list it sets `idle` and returns; otherwise it sets `rendering`,
applies every action in order, requests layout of the resulting graph,
and — depending on the layout promise outcome, abstracted by
`layoutOk` — either renders, sets `idle` and schedules the auto-save
timer, or sets `error` (scheduling nothing). -/
def handleActions (editorPresent : Bool) (g : GraphState) (actions : List Action)
    (layoutOk : Bool) : HandleResult :=
  if !editorPresent || actions.isEmpty then
    { statusTrace := [.idle], graph := g, layoutRequested := none,
      rendered := false, timers := [] }
  else
    let g' := (applyActions g actions).1
    if layoutOk then
      { statusTrace := [.rendering, .idle], graph := g', layoutRequested := some g',
        rendered := true, timers := [.autoSave 3000] }
    else
      { statusTrace := [.rendering, .error], graph := g', layoutRequested := some g',
        rendered := false, timers := [] }

/-- A parsed server message, the `data.type` dispatch of `ws.onmessage`
in `AgentCanvas.tsx`; `other` is a parsed JSON value whose `type` matches
no case. -/
inductive ServerMsg
  | connected (message : String)
  | transcriptMsg (text : String)
  | actionsMsg (actions : List Action)
  | errorMsg (message : String)
  | other
deriving DecidableEq, Repr

/-- Inbound frame data as seen by `ws.onmessage`: either JSON that
parsed, or a raw string on which `JSON.parse` threw. -/
inductive InboundData
  | parsed (m : ServerMsg)
  | unparseable (raw : String)
deriving DecidableEq, Repr

/-- The client-held session state touched by the handlers of
`AgentCanvas.tsx`. -/
structure ClientState where
  status : AgentStatus
  transcript : String
  graph : GraphState
  isConnected : Bool
deriving DecidableEq, Repr

/-- The JavaScript `raw.startsWith('\x7b')` check of the `ws.onmessage`
catch branch: a one-character prefix test, i.e. the first character is
a left brace. -/
def startsWithLBrace (s : String) : Bool :=
  match s.data with
  | [] => false
  | c :: _ => c == '\x7b'

/-- `ws.onmessage` of `AgentCanvas.tsx`: dispatch on the parsed `type`
(`connected` logs only; `transcript` stores the text and sets
`reasoning`; `actions` runs `handleActions`; `error` sets `error` and
schedules the 3000 ms revert-to-idle timer), and on a parse failure the
catch branch treats a raw string not starting with a left brace as a
transcript.  Returns the new state and the timers scheduled. -/
def onMessage (d : InboundData) (editorPresent layoutOk : Bool) (s : ClientState) :
    ClientState × List Timer :=
  match d with
  | .parsed (.connected _) => (s, [])
  | .parsed (.transcriptMsg t) => ({ s with transcript := t, status := .reasoning }, [])
  | .parsed (.actionsMsg acts) =>
      let r := handleActions editorPresent s.graph acts layoutOk
      ({ s with graph := r.graph, status := r.statusTrace.getLastD s.status }, r.timers)
  | .parsed (.errorMsg _) => ({ s with status := .error }, [Timer.toIdle 3000])
  | .parsed .other => (s, [])
  | .unparseable raw =>
      if startsWithLBrace raw then (s, [])
      else ({ s with transcript := raw, status := .reasoning }, [])

/-- `ws.onerror` of `AgentCanvas.tsx`: marks the connection down and sets
`error`; no timer is scheduled. -/
def onWsError (s : ClientState) : ClientState × List Timer :=
  ({ s with isConnected := false, status := .error }, [])

/-- A message the client sends over the socket: a JSON object carrying a
`type` field and the serialized graph, or a binary audio blob of the
given size. -/
inductive OutMsg
  | json (typeField : String) (g : GraphState)
  | binary (size : Nat)
deriving DecidableEq, Repr

/-- `mediaRecorder.onstop` of `startRecording` in `AgentCanvas.tsx`:
with an open socket and a non-empty audio blob it sets `transcribing`,
sends the serialized graph as a `graph_sync` JSON message and then the
audio blob; otherwise it sets `idle` and sends nothing. -/
def onStop (wsOpen : Bool) (blobSize : Nat) (g : GraphState) :
    AgentStatus × List OutMsg :=
  if wsOpen && decide (0 < blobSize) then
    (.transcribing, [OutMsg.json "graph_sync" g, OutMsg.binary blobSize])
  else
    (.idle, [])

/-- The client→server message kinds of the specified wire protocol
(§6 External Interfaces): raw binary audio and `canvas_sync`. -/
def specClientToServerKinds : List String := ["binary", "canvas_sync"]

/-- Modelled from the spec: the Schema-Validated Reasoner retry loop
(§4.3); the server file `agent/reasoning.py` is not among the available
sources.  `provider i` abstracts attempt `i` against the generation
provider: `none` when the output fails schema validation, `some acts`
when it validates.  Returns the validated list (or `none` for
`ReasoningFailure` on exhaustion) together with the number of attempts
consumed. -/
def reasonGo (provider : Nat → Option (List Action)) :
    Nat → Nat → Option (List Action) × Nat
  | 0, used => (none, used)
  | fuel + 1, used =>
      match provider (used + 1) with
      | some acts => (some acts, used + 1)
      | none => reasonGo provider fuel (used + 1)

/-- Modelled from the spec: `reason` with a retry budget — attempt up to
`budget` times, returning the first schema-valid action list, or `none`
(`ReasoningFailure`) after exactly `budget` invalid attempts. -/
def reason (provider : Nat → Option (List Action)) (budget : Nat) :
    Option (List Action) × Nat :=
  reasonGo provider budget 0

/-- Modelled from the spec: prune a rate-limit window (§4.5) — keep only
timestamps within the trailing window of the given duration; the server
file `middleware/rate_limit.py` is not among the available sources. -/
def rlPrune (window now : Nat) (ts : List Nat) : List Nat :=
  ts.filter (fun t => decide (now < t + window))

/-- Modelled from the spec: one sliding-window admission check (§4.5) —
discard timestamps older than the window, admit iff the remaining count
is below the maximum, and record the new timestamp only on admission. -/
def rlCheck (window maxCount now : Nat) (ts : List Nat) : Bool × List Nat :=
  let kept := rlPrune window now ts
  if kept.length < maxCount then (true, kept ++ [now]) else (false, kept)

/-- Run a sequence of admission checks at the given times, collecting
each check's verdict and threading the window state. -/
def rlRun (window maxCount : Nat) (times : List Nat) (ts : List Nat) :
    List Bool × List Nat :=
  match times with
  | [] => ([], ts)
  | now :: rest =>
      let c := rlCheck window maxCount now ts
      let k := rlRun window maxCount rest c.2
      (c.1 :: k.1, k.2)

/-- A concrete node with default type, color and no parent, for witnesses. -/
def mkNode (i l : String) : Node :=
  { id := i, label := l, description := none, type := NodeType.box,
    color := NodeColor.blue, parent_id := none }

/-- A concrete unidirectional edge, for witnesses. -/
def mkEdge (i s t : String) : Edge :=
  { id := i, source_id := s, target_id := t, bidirectional := false }

/-- A concrete two-node, two-edge graph with a parent reference, used as
witness input. -/
def gW : GraphState :=
  { nodes := [mkNode "a" "A", { mkNode "b" "B" with parent_id := some "a" }],
    edges := [mkEdge "e" "a" "b", mkEdge "f" "b" "a"] }

/-- A concrete client state in the reasoning status, for witnesses. -/
def sReasoning : ClientState :=
  { status := AgentStatus.reasoning, transcript := "", graph := createGraphState,
    isConnected := true }

/-- A concrete provider that validates only on attempt 3, for witnesses. -/
def provW : Nat → Option (List Action) :=
  fun i => if i == 3 then some [Action.delete_node "x"] else none

/-- A concrete provider whose output never validates, for witnesses. -/
def provBad : Nat → Option (List Action) :=
  fun _ => none

/-! ### Helper lemmas -/

/-- Batch application distributes over list append: the suffix is applied
to the state produced by the prefix, and the outcome lists concatenate. -/
theorem applyActions_append (g : GraphState) (as bs : List Action) :
    applyActions g (as ++ bs)
      = ((applyActions (applyActions g as).1 bs).1,
         (applyActions g as).2 ++ (applyActions (applyActions g as).1 bs).2) := by
  induction as generalizing g with
  | nil => simp [applyActions]
  | cons a rest ih => simp [applyActions, ih]

/-- Every action of a batch gets an outcome: one Bool per action. -/
theorem applyActions_length (g : GraphState) (as : List Action) :
    (applyActions g as).2.length = as.length := by
  induction as generalizing g with
  | nil => simp [applyActions]
  | cons a rest ih => simp [applyActions, ih]

/-- One failed attempt consumes one unit of fuel and one attempt. -/
theorem reasonGo_step_none (provider : Nat → Option (List Action)) (fuel used : Nat)
    (h : provider (used + 1) = none) :
    reasonGo provider (fuel + 1) used = reasonGo provider fuel (used + 1) := by
  simp [reasonGo, h]

/-- Pruning at the very time every timestamp was recorded keeps them all. -/
theorem rlPrune_replicate_self (k t : Nat) :
    rlPrune 60 t (List.replicate k t) = List.replicate k t := by
  rw [rlPrune, List.filter_eq_self]
  intro a ha
  rw [List.eq_of_mem_replicate ha]
  simp

/-- Pruning a full window-width later discards every timestamp. -/
theorem rlPrune_past (k t : Nat) :
    rlPrune 60 (t + 60) (List.replicate k t) = [] := by
  rw [rlPrune, List.filter_eq_nil_iff]
  intro a ha
  rw [List.eq_of_mem_replicate ha]
  simp

/-- An admission check at time `t` against `k < 10` same-time stamps
admits and appends the stamp. -/
theorem rlCheck_same (k t : Nat) (hk : k < 10) :
    rlCheck 60 10 t (List.replicate k t) = (true, List.replicate (k + 1) t) := by
  simp [rlCheck, rlPrune_replicate_self, hk, List.replicate_succ', List.length_replicate]

/-- Running `m` same-time checks against `k` same-time stamps admits all
of them while `k + m` stays within the maximum. -/
theorem rlRun_replicate (t : Nat) :
    ∀ m k : Nat, k + m ≤ 10 →
      rlRun 60 10 (List.replicate m t) (List.replicate k t)
        = (List.replicate m true, List.replicate (k + m) t) := by
  intro m
  induction m with
  | zero => intro k _; simp [rlRun]
  | succ m ih =>
      intro k hk
      rw [List.replicate_succ, rlRun]
      simp only [rlCheck_same k t (by omega), ih (k + 1) (by omega)]
      rw [show k + 1 + m = k + (m + 1) from by omega, List.replicate_succ]

/-! ### Claims -/

/-- C1: a batch of actions is applied one-by-one strictly in the supplied
order — appending a suffix continues from the prefix's final state and
concatenates the outcome records — every action receives exactly one
independently recorded outcome, a failed action does not abort the batch
(the concrete batch whose first action fails still attempts and records
the second), and the scenario batch create a, create b, edge a→b on the
empty graph succeeds on all three actions in order. -/
theorem c1_batch_order_and_no_abort :
    (∀ (g : GraphState) (as bs : List Action),
        applyActions g (as ++ bs)
          = ((applyActions (applyActions g as).1 bs).1,
             (applyActions g as).2 ++ (applyActions (applyActions g as).1 bs).2))
    ∧ (∀ (g : GraphState) (as : List Action), (applyActions g as).2.length = as.length)
    ∧ (applyActions createGraphState
        [Action.create_node (mkNode "a" "A"), Action.create_node (mkNode "b" "B"),
         Action.create_edge (mkEdge "e" "a" "b")]).2 = [true, true, true]
    ∧ (applyActions createGraphState
        [Action.create_edge (mkEdge "e" "a" "b"),
         Action.create_node (mkNode "a" "A")]).2 = [false, true] :=
  ⟨applyActions_append, applyActions_length, by decide, by decide⟩

/-- C2: after applying `delete_node n` to a graph containing `n`, no edge
of the result has `n` as source or target, and no node of the result has
`parent_id = n` — the cascade leaves no dangling reference. -/
theorem c2_delete_node_cascade (g : GraphState) (n : String)
    (_h : ∃ m ∈ g.nodes, m.id = n) :
    (∀ e ∈ (applyAction g (Action.delete_node n)).1.edges,
        e.source_id ≠ n ∧ e.target_id ≠ n)
    ∧ (∀ m ∈ (applyAction g (Action.delete_node n)).1.nodes,
        m.parent_id ≠ some n) := by
  constructor
  · intro e he
    simp only [applyAction, List.mem_filter, Bool.and_eq_true, Bool.not_eq_true',
      beq_eq_false_iff_ne, ne_eq] at he
    exact he.2
  · intro m hm
    simp only [applyAction, List.mem_map] at hm
    obtain ⟨m', _, rfl⟩ := hm
    by_cases hp : m'.parent_id = some n
    · simp [hp]
    · simp [hp]

/-- C2 witness: deleting node a from the concrete graph `gW` (which
contains a, a node parented to a, and two edges touching a) leaves no
reference to a. -/
theorem c2_witness :
    (∃ m ∈ gW.nodes, m.id = "a")
    ∧ ((∀ e ∈ (applyAction gW (Action.delete_node "a")).1.edges,
          e.source_id ≠ "a" ∧ e.target_id ≠ "a")
       ∧ (∀ m ∈ (applyAction gW (Action.delete_node "a")).1.nodes,
          m.parent_id ≠ some "a")) :=
  ⟨by decide, c2_delete_node_cascade gW "a" (by decide)⟩

/-- C3: a `create_edge` action whose source or target id resolves to no
existing node fails and leaves the graph completely unchanged. -/
theorem c3_create_edge_rejection (g : GraphState) (e : Edge)
    (h : (∀ m ∈ g.nodes, m.id ≠ e.source_id) ∨ (∀ m ∈ g.nodes, m.id ≠ e.target_id)) :
    applyAction g (Action.create_edge e) = (g, false) := by
  rcases h with h | h
  · have hs : nodeExists g e.source_id = false := by
      simp only [nodeExists, List.any_eq_false]
      intro m hm
      simpa using h m hm
    simp [applyAction, hs]
  · have ht : nodeExists g e.target_id = false := by
      simp only [nodeExists, List.any_eq_false]
      intro m hm
      simpa using h m hm
    simp [applyAction, ht]

/-- C3 witness: creating an edge from the absent node zz in the concrete
graph `gW` fails and returns `gW` unchanged. -/
theorem c3_witness :
    ((∀ m ∈ gW.nodes, m.id ≠ (mkEdge "z" "zz" "b").source_id)
      ∨ (∀ m ∈ gW.nodes, m.id ≠ (mkEdge "z" "zz" "b").target_id))
    ∧ applyAction gW (Action.create_edge (mkEdge "z" "zz" "b")) = (gW, false) :=
  ⟨Or.inl (by decide), c3_create_edge_rejection gW (mkEdge "z" "zz" "b") (Or.inl (by decide))⟩

/-- C4: the reasoner returns a validated action list as soon as some
attempt within the budget validates (invalid on attempts 1 and 2, valid
on 3 with budget ≥ 3 yields the valid list after exactly 3 attempts),
and with a provider that never validates it fails after exactly the
configured number of attempts — never fewer, never more. -/
theorem c4_reasoner_retry (provider : Nat → Option (List Action)) (budget : Nat)
    (acts : List Action) :
    (provider 1 = none → provider 2 = none → provider 3 = some acts →
      3 ≤ budget → reason provider budget = (some acts, 3))
    ∧ ((∀ i, provider i = none) → reason provider budget = (none, budget)) := by
  constructor
  · intro h1 h2 h3 hb
    obtain ⟨k, rfl⟩ := Nat.exists_eq_add_of_le hb
    show reasonGo provider (3 + k) 0 = (some acts, 3)
    rw [show 3 + k = ((k + 1) + 1) + 1 from by omega]
    rw [reasonGo_step_none provider ((k + 1) + 1) 0 h1]
    rw [reasonGo_step_none provider (k + 1) 1 h2]
    simp [reasonGo, h3]
  · intro hall
    show reasonGo provider budget 0 = (none, budget)
    have key : ∀ fuel used : Nat, reasonGo provider fuel used = (none, used + fuel) := by
      intro fuel
      induction fuel with
      | zero => intro used; simp [reasonGo]
      | succ f ih =>
          intro used
          rw [reasonGo_step_none provider f used (hall (used + 1)), ih (used + 1)]
          rw [show used + 1 + f = used + (f + 1) from by omega]
    simpa using key budget 0

/-- C4 witness: the attempt-3 provider `provW` with budget 3 yields its
valid list after 3 attempts; the never-valid provider `provBad` with
budget 2 fails after exactly 2 attempts. -/
theorem c4_witness :
    (provW 1 = none ∧ provW 2 = none ∧ provW 3 = some [Action.delete_node "x"]
      ∧ 3 ≤ 3 ∧ reason provW 3 = (some [Action.delete_node "x"], 3))
    ∧ ((∀ i, provBad i = none) ∧ reason provBad 2 = (none, 2)) :=
  ⟨⟨rfl, rfl, rfl, by decide,
     (c4_reasoner_retry provW 3 [Action.delete_node "x"]).1 rfl rfl rfl (by decide)⟩,
   ⟨fun _ => rfl, (c4_reasoner_retry provBad 2 [Action.delete_node "x"]).2 (fun _ => rfl)⟩⟩

/-- C5: with a 60-unit window and maximum 10, 10 admissions at the same
time all succeed; the 11th check at that time is rejected and — because
rejections record no timestamp — leaves the window state unchanged; and a
check one full window later discards the old stamps and admits. -/
theorem c5_rate_limiter (t : Nat) :
    rlRun 60 10 (List.replicate 10 t) [] = (List.replicate 10 true, List.replicate 10 t)
    ∧ rlCheck 60 10 t (List.replicate 10 t) = (false, List.replicate 10 t)
    ∧ rlCheck 60 10 (t + 60) (List.replicate 10 t) = (true, [t + 60]) := by
  refine ⟨?_, ?_, ?_⟩
  · simpa using rlRun_replicate t 10 0 (by omega)
  · simp only [rlCheck, rlPrune_replicate_self, List.length_replicate]
    norm_num
  · simp only [rlCheck, rlPrune_past, List.length_nil, List.nil_append]
    norm_num

/-- C6 counterexample: a layout failure while handling an action batch in
the reasoning state moves the client to the error status with an empty
list of scheduled timers — no auto-return to idle is scheduled for this
cause, refuting the claim that every cause of entering error
auto-returns after a display delay. -/
theorem c6_counterexample :
    (onMessage (InboundData.parsed (ServerMsg.actionsMsg [Action.delete_node "x"]))
        true false sReasoning).1.status = AgentStatus.error
    ∧ (onMessage (InboundData.parsed (ServerMsg.actionsMsg [Action.delete_node "x"]))
        true false sReasoning).2 = [] := by decide

/-- C6 (amended): from every client state, a server-reported error
message moves the session to error and schedules the 3000 ms return to
idle; a transport error and a layout failure also move the session to
error but schedule no timer, so only the server-message cause
auto-returns. -/
theorem c6_error_transitions :
    (∀ (s : ClientState) (m : String) (e l : Bool),
        onMessage (InboundData.parsed (ServerMsg.errorMsg m)) e l s
          = ({ s with status := AgentStatus.error }, [Timer.toIdle 3000]))
    ∧ (∀ s : ClientState,
        onWsError s = ({ s with isConnected := false, status := AgentStatus.error }, []))
    ∧ (∀ (s : ClientState) (acts : List Action), acts ≠ [] →
        (onMessage (InboundData.parsed (ServerMsg.actionsMsg acts)) true false s).1.status
            = AgentStatus.error
        ∧ (onMessage (InboundData.parsed (ServerMsg.actionsMsg acts)) true false s).2
            = []) := by
  refine ⟨fun s m e l => rfl, fun s => rfl, ?_⟩
  intro s acts h
  cases acts with
  | nil => exact absurd rfl h
  | cons a rest => exact ⟨rfl, rfl⟩

/-- C6 witness: the amended statement at a concrete state and a concrete
one-action batch whose layout fails. -/
theorem c6_witness :
    ([Action.create_node (mkNode "a" "A")] ≠ ([] : List Action))
    ∧ ((onMessage (InboundData.parsed
          (ServerMsg.actionsMsg [Action.create_node (mkNode "a" "A")]))
          true false sReasoning).1.status = AgentStatus.error
       ∧ (onMessage (InboundData.parsed
          (ServerMsg.actionsMsg [Action.create_node (mkNode "a" "A")]))
          true false sReasoning).2 = []) :=
  ⟨by decide,
   c6_error_transitions.2.2 sReasoning [Action.create_node (mkNode "a" "A")] (by decide)⟩

/-- C7 counterexample: an empty action list received with the editor
mounted sends the session directly to idle — it never enters the
rendering status and never requests layout — refuting the claim for
every received action list. -/
theorem c7_counterexample :
    handleActions true createGraphState [] true
      = { statusTrace := [AgentStatus.idle], graph := createGraphState,
          layoutRequested := none, rendered := false, timers := [] }
    ∧ AgentStatus.rendering ∉ (handleActions true createGraphState [] true).statusTrace := by
  exact ⟨rfl, by decide⟩

/-- C7 (amended): for every non-empty action list received with the
editor mounted, the session enters rendering, applies each action in
order, requests layout of the resulting graph, renders the positioned
result, and returns to idle on completion (scheduling the auto-save
timer); an empty list or absent editor returns directly to idle. -/
theorem c7_render_pipeline (g : GraphState) (actions : List Action)
    (h : actions ≠ []) :
    handleActions true g actions true
      = { statusTrace := [AgentStatus.rendering, AgentStatus.idle],
          graph := (applyActions g actions).1,
          layoutRequested := some (applyActions g actions).1,
          rendered := true, timers := [Timer.autoSave 3000] } := by
  cases actions with
  | nil => exact absurd rfl h
  | cons a rest => rfl

/-- C7 witness: the amended pipeline at a concrete one-action batch. -/
theorem c7_witness :
    ([Action.create_node (mkNode "a" "A")] ≠ ([] : List Action))
    ∧ handleActions true createGraphState [Action.create_node (mkNode "a" "A")] true
      = { statusTrace := [AgentStatus.rendering, AgentStatus.idle],
          graph := (applyActions createGraphState
            [Action.create_node (mkNode "a" "A")]).1,
          layoutRequested := some (applyActions createGraphState
            [Action.create_node (mkNode "a" "A")]).1,
          rendered := true, timers := [Timer.autoSave 3000] } :=
  ⟨by decide,
   c7_render_pipeline createGraphState [Action.create_node (mkNode "a" "A")] (by decide)⟩

/-- C8: stopping capture with an empty audio buffer returns the session
directly to idle and sends nothing to the server (so the transcription
service and the reasoner are never invoked), and the session reaches
transcribing exactly when the socket is open and the buffer non-empty. -/
theorem c8_empty_buffer_idle (wsOpen : Bool) (g : GraphState) (n : Nat) :
    onStop wsOpen 0 g = (AgentStatus.idle, [])
    ∧ ((onStop wsOpen n g).1 = AgentStatus.transcribing ↔ (wsOpen = true ∧ 0 < n)) := by
  constructor
  · cases wsOpen <;> rfl
  · cases wsOpen <;> by_cases h : 0 < n <;> simp [onStop, h]

/-- C9: an inbound string that fails JSON parsing and does not start with
a left brace is treated exactly like a well-formed transcript message —
the raw text is stored as the transcript and the status becomes
reasoning. -/
theorem c9_raw_string_transcript (raw : String) (e l : Bool) (s : ClientState)
    (h : startsWithLBrace raw = false) :
    onMessage (InboundData.unparseable raw) e l s
      = onMessage (InboundData.parsed (ServerMsg.transcriptMsg raw)) e l s
    ∧ (onMessage (InboundData.unparseable raw) e l s).1
        = { s with transcript := raw, status := AgentStatus.reasoning } := by
  constructor <;> simp [onMessage, h]

/-- C9 witness: the fallback at the concrete unparseable string. -/
theorem c9_witness :
    startsWithLBrace "draw a database" = false
    ∧ (onMessage (InboundData.unparseable "draw a database") true true sReasoning
        = onMessage (InboundData.parsed (ServerMsg.transcriptMsg "draw a database"))
            true true sReasoning
       ∧ (onMessage (InboundData.unparseable "draw a database") true true sReasoning).1
          = { sReasoning with
              transcript := "draw a database", status := AgentStatus.reasoning }) :=
  ⟨by decide, c9_raw_string_transcript "draw a database" true true sReasoning (by decide)⟩

/-- C10: stopping capture with an open socket and non-empty audio sends
first the `graph_sync` JSON message carrying the serialized graph and
only then the binary audio blob, and the `graph_sync` kind is absent
from the client→server kinds of the specified wire protocol. -/
theorem c10_graph_sync_before_audio (g : GraphState) (n : Nat) (h : 0 < n) :
    (onStop true n g).2 = [OutMsg.json "graph_sync" g, OutMsg.binary n]
    ∧ "graph_sync" ∉ specClientToServerKinds := by
  constructor
  · simp [onStop, h]
  · decide

/-- C10 witness: the send order at a concrete non-empty blob. -/
theorem c10_witness :
    0 < 4
    ∧ ((onStop true 4 createGraphState).2
        = [OutMsg.json "graph_sync" createGraphState, OutMsg.binary 4]
       ∧ "graph_sync" ∉ specClientToServerKinds) :=
  ⟨by decide, c10_graph_sync_before_audio createGraphState 4 (by decide)⟩

end PhronAi
